import Mathlib

/-!
Shallow embedding of the quique message broker (Rust) for specification
checking.  Bytes are modelled as `Nat` (each in `[0,256)` on real wire data);
Rust strings are identified with their UTF-8 byte lists; machine-integer
casts (`as u16`, `as u32`) are modelled with explicit `% 2^w` truncation at
byte extraction.  Fallible Rust paths (a panic, an `unwrap` of `None`) are
modelled with `Option`, `none` standing for the panic.
-/

namespace Quique

/-! ## Wire codec (src/protocol.rs) -/

def MAGIC : Nat := 0x51425553

def VERSION : Nat := 1

/-- Opcodes of the wire protocol (`enum Op` in src/protocol.rs). -/
inductive Op where
  | CreateTopic
  | Produce
  | Consume
  | Metadata
  | Read
deriving DecidableEq, Repr

/-- The `repr(u8)` value of each opcode. -/
def Op.toByte : Op → Nat
  | .CreateTopic => 0x01
  | .Produce => 0x02
  | .Consume => 0x03
  | .Metadata => 0x04
  | .Read => 0x05

/-- Reply status codes (`enum Status` in src/protocol.rs).  The source names
the duplicate-resource status `TopicExists`; its wire code 12 is what the
spec calls `ResourceExists`. -/
inductive Status where
  | Ok
  | Redirect
  | Empty
  | TopicExists
  | NotFound
  | BadRequest
  | ServerError
deriving DecidableEq, Repr

/-- The `repr(u16)` value of each status. -/
def Status.toCode : Status → Nat
  | .Ok => 0
  | .Redirect => 10
  | .Empty => 11
  | .TopicExists => 12
  | .NotFound => 13
  | .BadRequest => 400
  | .ServerError => 500

/-- Decode errors (`enum ProtoError` in src/protocol.rs). -/
inductive ProtoError where
  | InvalidMagic (m : Nat)
  | InvalidVersion (v : Nat)
  | InvalidOpcode (b : Nat)
  | Short
deriving DecidableEq, Repr

/-- `impl TryFrom<u8> for Op` (src/protocol.rs lines 17-29): only the byte
values 0x01..0x05 decode; everything else is `InvalidOpcode`. -/
def Op.tryFrom (v : Nat) : Except ProtoError Op :=
  match v with
  | 0x01 => .ok .CreateTopic
  | 0x02 => .ok .Produce
  | 0x03 => .ok .Consume
  | 0x04 => .ok .Metadata
  | 0x05 => .ok .Read
  | _ => .error (.InvalidOpcode v)

/-- `put_u16`: cast to u16 (truncating) then two big-endian bytes. -/
def putU16 (v : Nat) : List Nat :=
  [v / 2 ^ 8 % 256, v % 256]

/-- `put_u32`: cast to u32 (truncating) then four big-endian bytes. -/
def putU32 (v : Nat) : List Nat :=
  [v / 2 ^ 24 % 256, v / 2 ^ 16 % 256, v / 2 ^ 8 % 256, v % 256]

/-- `put_str` (src/protocol.rs lines 107-110): writes `s.len() as u16`
(silently truncating lengths ≥ 65536) then the raw bytes. -/
def putStr (s : List Nat) : List Nat :=
  putU16 s.length ++ s

/-- `put_bytes` (src/protocol.rs lines 124-127): u32 length then raw bytes. -/
def putBytes (v : List Nat) : List Nat :=
  putU32 v.length ++ v

/-- `put_status`: the status code as a u16. -/
def putStatus (st : Status) : List Nat :=
  putU16 st.toCode

/-- `get_str` (src/protocol.rs lines 111-123).  The Rust function mutates a
`&mut &[u8]` cursor; here the second component of the result is the cursor
after the call.  Note the length prefix is consumed *before* the payload
length check, so on payload underflow the cursor has already advanced by 2.
`String::from_utf8_lossy` is the identity on the valid UTF-8 bytes modelled
here. -/
def getStr (b : List Nat) : Option (List Nat) × List Nat :=
  match b with
  | b0 :: b1 :: rest =>
    let len := b0 * 256 + b1
    if rest.length < len then (none, rest)
    else (some (rest.take len), rest.drop len)
  | _ => (none, b)

/-- `get_bytes` (src/protocol.rs lines 128-140): u32 length prefix, then the
payload; the 4-byte prefix is consumed before the payload length check. -/
def getBytes (b : List Nat) : Option (List Nat) × List Nat :=
  match b with
  | b0 :: b1 :: b2 :: b3 :: rest =>
    let n := b0 * 2 ^ 24 + b1 * 2 ^ 16 + b2 * 2 ^ 8 + b3
    if rest.length < n then (none, rest)
    else (some (rest.take n), rest.drop n)
  | _ => (none, b)

/-- `get_u32` (src/protocol.rs lines 144-151). -/
def getU32 (b : List Nat) : Option Nat × List Nat :=
  match b with
  | b0 :: b1 :: b2 :: b3 :: rest =>
    (some (b0 * 2 ^ 24 + b1 * 2 ^ 16 + b2 * 2 ^ 8 + b3), rest)
  | _ => (none, b)

/-- The 16-byte frame header (src/protocol.rs lines 56-64). -/
structure Header where
  magic : Nat
  version : Nat
  op : Op
  flags : Nat
  stream_id : Nat
  body_len : Nat
deriving DecidableEq, Repr

/-- `Header::encode` (src/protocol.rs lines 67-75): writes the constants
`MAGIC` and `VERSION` (not the struct fields), the opcode byte, the flags
byte, a zero reserved byte, then stream id and body length big-endian. -/
def Header.encode (h : Header) : List Nat :=
  putU32 MAGIC ++ VERSION :: h.op.toByte :: h.flags % 256 :: 0 ::
    (putU32 h.stream_id ++ putU32 h.body_len)

/-- `Header::decode` (src/protocol.rs lines 76-103): with fewer than 16
buffered bytes the result is `ok none` and nothing is consumed; otherwise the
fields are read from the first 16 bytes and, on success only, the buffer is
advanced by exactly 16 (the returned list is the remaining buffer). -/
def Header.decode (src : List Nat) : Except ProtoError (Option (Header × List Nat)) :=
  if src.length < 16 then .ok none
  else
    match src with
    | b0 :: b1 :: b2 :: b3 :: b4 :: b5 :: b6 :: _b7 :: b8 :: b9 :: b10 :: b11 ::
        b12 :: b13 :: b14 :: b15 :: rest =>
      let magic := b0 * 2 ^ 24 + b1 * 2 ^ 16 + b2 * 2 ^ 8 + b3
      if magic ≠ MAGIC then .error (.InvalidMagic magic)
      else if b4 ≠ VERSION then .error (.InvalidVersion b4)
      else
        match Op.tryFrom b5 with
        | .error e => .error e
        | .ok op =>
          .ok (some ({ magic := magic, version := b4, op := op, flags := b6,
                       stream_id := b8 * 2 ^ 24 + b9 * 2 ^ 16 + b10 * 2 ^ 8 + b11,
                       body_len := b12 * 2 ^ 24 + b13 * 2 ^ 16 + b14 * 2 ^ 8 + b15 }, rest))
    | _ => .ok none

/-! ## Cluster view (src/cluster.rs) -/

/-- A cluster member (`struct Node`), strings as UTF-8 byte lists. -/
structure Node where
  id : List Nat
  addr : List Nat
deriving DecidableEq, Repr

/-- `struct Cluster`: this node plus the static ordered member list. -/
structure Cluster where
  me : Node
  nodes : List Node
deriving Repr

/-- The rendezvous key `format!("{}:{}", n.id, topic)`; 58 is the UTF-8 byte
of the colon. -/
def rendezvousKey (n : Node) (topic : List Nat) : List Nat :=
  n.id ++ 58 :: topic

/-- One iteration of the `leader_of` loop: keep the running best unless the
candidate scores strictly higher (`best.map(|(_, s)| score > s).unwrap_or(true)`).
The hash `h` abstracts `seahash::hash` from the external seahash crate (a
dependency, not code of this repository); every theorem below holds for an
arbitrary 64-bit hash, in particular for seahash. -/
def leaderStep (h : List Nat → Nat) (topic : List Nat)
    (best : Option (Node × Nat)) (n : Node) : Option (Node × Nat) :=
  let score := h (rendezvousKey n topic)
  match best with
  | none => some (n, score)
  | some p => if p.2 < score then some (n, score) else best

/-- `Cluster::leader_of` (src/cluster.rs lines 40-50): rendezvous hashing,
largest score wins, first occurrence wins ties.  The source ends in
`best.unwrap()`, which panics on an empty member list; `none` models that
panic. -/
def Cluster.leader_of (h : List Nat → Nat) (c : Cluster) (topic : List Nat) :
    Option Node :=
  (c.nodes.foldl (leaderStep h topic) none).map Prod.fst

/-! ## Registry, topics and queues (src/queue.rs) -/

/-- A bounded in-memory queue (`struct Queue`): the `ArrayQueue` ring is the
`items` list, front first.  The `Notify` wake primitive carries no state
relevant to the sequential handlers modelled here and is elided. -/
structure Queue where
  name : List Nat
  capacity : Nat
  items : List (List Nat)
deriving DecidableEq, Repr

/-- `Queue::new` (src/queue.rs lines 15-21) constructs
`ArrayQueue::new(cap)`; crossbeam's `ArrayQueue::new` asserts `cap > 0` and
panics on zero capacity, modelled by `none`. -/
def Queue.new (name : List Nat) (cap : Nat) : Option Queue :=
  if cap = 0 then none else some { name := name, capacity := cap, items := [] }

/-- `Queue::push` (src/queue.rs lines 23-29): appends when the ring has room,
otherwise hands the value back to the caller. -/
def Queue.push (q : Queue) (v : List Nat) : Except (List Nat) Queue :=
  if q.items.length < q.capacity then .ok { q with items := q.items ++ [v] }
  else .error v

/-- `Queue::pop` (src/queue.rs lines 31-33): non-blocking FIFO pop. -/
def Queue.pop (q : Queue) : Option (List Nat) × Queue :=
  match q.items with
  | [] => (none, q)
  | v :: rest => (some v, { q with items := rest })

/-- A topic (`struct Topic`): the `DashSet` of bound queue names as a
duplicate-free list. -/
structure Topic where
  name : List Nat
  bound_queues : List (List Nat)
deriving DecidableEq, Repr

/-- `Topic::new`: empty bound set. -/
def Topic.new (name : List Nat) : Topic :=
  { name := name, bound_queues := [] }

/-- `Topic::bind`: set insertion (idempotent). -/
def Topic.bind (t : Topic) (qn : List Nat) : Topic :=
  if qn ∈ t.bound_queues then t
  else { t with bound_queues := t.bound_queues ++ [qn] }

/-- `struct Registry`: the two `DashMap`s as association lists keyed by
name. -/
structure Registry where
  topics : List (List Nat × Topic)
  queues : List (List Nat × Queue)
deriving DecidableEq, Repr

/-- `Registry::get_topic`. -/
def Registry.get_topic (r : Registry) (name : List Nat) : Option Topic :=
  (r.topics.find? (fun p => p.1 = name)).map Prod.snd

/-- `Registry::get_queue`. -/
def Registry.get_queue (r : Registry) (name : List Nat) : Option Queue :=
  (r.queues.find? (fun p => p.1 = name)).map Prod.snd

/-- `Registry::create_topic` (src/queue.rs lines 98-104): get-or-insert; the
map is unchanged when the name is present. -/
def Registry.create_topic (r : Registry) (name : List Nat) : Registry :=
  if (r.topics.find? (fun p => p.1 = name)).isSome then r
  else { r with topics := r.topics ++ [(name, Topic.new name)] }

/-- `Registry::create_queue` (src/queue.rs lines 106-108): get-or-insert;
when the name is absent the `Queue::new` closure runs, whose zero-capacity
panic propagates (`none`). -/
def Registry.create_queue (r : Registry) (name : List Nat) (cap : Nat) :
    Option Registry :=
  if (r.queues.find? (fun p => p.1 = name)).isSome then some r
  else
    match Queue.new name cap with
    | none => none
    | some q => some { r with queues := r.queues ++ [(name, q)] }

/-- Writing back a mutation made through the shared `Arc<Queue>` handle:
the entry for `name` is replaced in place. -/
def Registry.set_queue (r : Registry) (name : List Nat) (q : Queue) : Registry :=
  { r with queues := r.queues.map (fun p => if p.1 = name then (p.1, q) else p) }

/-! ## Request handlers (src/handler.rs)

Each handler takes the request body cursor and returns the reply body (a
status followed by optional payload) together with the updated registry;
`none` models a Rust panic escaping the handler.  The hash parameter `h`
abstracts `seahash::hash` exactly as in `Cluster.leader_of`. -/

/-- `handle_read` (src/handler.rs lines 219-229): unconditionally replies
`BadRequest`. -/
def handle_read (_body : List Nat) : List Nat :=
  putStatus .BadRequest

/-- `handle_create_topic` (src/handler.rs lines 25-52). -/
def handle_create_topic (h : List Nat → Nat) (c : Cluster) (r : Registry)
    (body : List Nat) : Option (List Nat × Registry) :=
  match getStr body with
  | (none, _) => some (putStatus .BadRequest, r)
  | (some topic, _) =>
    match c.leader_of h topic with
    | none => none
    | some leader =>
      if leader.id ≠ c.me.id then
        some (putStatus .Redirect ++ putStr leader.addr, r)
      else if (r.get_topic topic).isSome then
        some (putStatus .TopicExists, r)
      else
        some (putStatus .Ok, r.create_topic topic)

/-- `handle_create_queue` (src/handler.rs lines 54-78): node-local, no
redirection, no capacity validation before `create_queue`. -/
def handle_create_queue (r : Registry) (body : List Nat) :
    Option (List Nat × Registry) :=
  match getStr body with
  | (none, _) => some (putStatus .BadRequest, r)
  | (some queue, rest) =>
    match getU32 rest with
    | (none, _) => some (putStatus .BadRequest, r)
    | (some cap, _) =>
      if (r.get_queue queue).isSome then
        some (putStatus .TopicExists, r)
      else
        match r.create_queue queue cap with
        | none => none
        | some r' => some (putStatus .Ok, r')

/-- One fan-out step of `handle_produce`: `if let Some(q) = get_queue(..) {
let _ = q.push(data.clone()); }` — missing queues and full queues are
skipped silently. -/
def pushSilent (r : Registry) (qn : List Nat) (data : List Nat) : Registry :=
  match r.get_queue qn with
  | none => r
  | some q =>
    match q.push data with
    | .ok q' => r.set_queue qn q'
    | .error _ => r

/-- The `for q_name in t.bound_queues.iter()` fan-out loop. -/
def fanout (r : Registry) (names : List (List Nat)) (data : List Nat) : Registry :=
  names.foldl (fun r qn => pushSilent r qn data) r

/-- `handle_produce` (src/handler.rs lines 122-177): topic lookup happens
*before* the leadership check, and an absent topic is `NotFound` — no
auto-creation. -/
def handle_produce (h : List Nat → Nat) (c : Cluster) (r : Registry)
    (body : List Nat) : Option (List Nat × Registry) :=
  match getStr body with
  | (none, _) => some (putStatus .BadRequest, r)
  | (some topic, rest) =>
    match getBytes rest with
    | (none, _) => some (putStatus .BadRequest, r)
    | (some data, _) =>
      match r.get_topic topic with
      | none => some (putStatus .NotFound, r)
      | some t =>
        match c.leader_of h topic with
        | none => none
        | some leader =>
          if leader.id ≠ c.me.id then
            some (putStatus .Redirect ++ putStr leader.addr, r)
          else
            some (putStatus .Ok, fanout r t.bound_queues data)

/-- `handle_consume` (src/handler.rs lines 179-217): the timeout field is
parsed (`unwrap_or(0)`) and then ignored; an absent queue is `NotFound`
(no auto-creation); the pop is always the non-blocking `Queue::pop`. -/
def handle_consume (r : Registry) (body : List Nat) : List Nat × Registry :=
  match getStr body with
  | (none, _) => (putStatus .BadRequest, r)
  | (some qname, rest) =>
    let _timeout := ((getU32 rest).1).getD 0
    match r.get_queue qname with
    | none => (putStatus .NotFound, r)
    | some q =>
      match q.pop with
      | (some v, q') => (putStatus .Ok ++ putBytes v, r.set_queue qname q')
      | (none, _) => (putStatus .Empty, r)

/-! ## Derived forms and concrete fixtures -/

/-- The net effect on a single queue of the fan-out's discarded push
(`let _ = q.push(data.clone())`): append below capacity, drop when full. -/
def Queue.pushOrDrop (q : Queue) (v : List Nat) : Queue :=
  match q.push v with
  | .ok q' => q'
  | .error _ => q

/-- A degenerate hash giving every key score zero (ties everywhere). -/
def hZero : List Nat → Nat := fun _ => 0

/-- A toy hash summing the key bytes, used to exercise the rendezvous
argmax on distinct scores. -/
def hSum : List Nat → Nat := fun l => l.sum

/-- A node `n@a`. -/
def nodeA : Node := { id := [110], addr := [97] }

/-- A node `m@b`. -/
def nodeB : Node := { id := [109], addr := [98] }

/-- A single-node cluster: `nodeA` is the leader of every topic. -/
def clusterA : Cluster := { me := nodeA, nodes := [nodeA] }

/-- A two-node cluster. -/
def clusterB : Cluster := { me := nodeA, nodes := [nodeA, nodeB] }

/-- The broker's state at startup: no topics, no queues. -/
def emptyRegistry : Registry := { topics := [], queues := [] }

/-- A registry holding one queue `q` (capacity 2) with one buffered
payload. -/
def consumeRegistry : Registry :=
  { topics := [],
    queues := [([113], { name := [113], capacity := 2, items := [[7]] })] }

/-- A registry holding a topic `t` bound to queue `q` (room available) and
queue `p` (full). -/
def produceRegistry : Registry :=
  { topics := [([116], { name := [116], bound_queues := [[113], [112]] })],
    queues := [([113], { name := [113], capacity := 2, items := [] }),
               ([112], { name := [112], capacity := 1, items := [[9]] })] }

end Quique

namespace Quique

/-! ## Codec lemmas -/

/-- Round-trip of `put_str` / `get_str` for in-range lengths: the u16 length
prefix survives and the cursor advances exactly past the payload. -/
theorem getStr_putStr (s rest : List Nat) (h : s.length ≤ 65535) :
    getStr (putStr s ++ rest) = (some s, rest) := by
  have hlen : s.length / 2 ^ 8 % 256 * 256 + s.length % 256 = s.length := by omega
  simp only [putStr, putU16, List.cons_append, List.nil_append, getStr]
  rw [hlen]
  rw [if_neg (by rw [List.length_append]; omega)]
  rw [List.take_left, List.drop_left]

/-- Round-trip of `put_bytes` / `get_bytes` for in-range lengths. -/
theorem getBytes_putBytes (v rest : List Nat) (h : v.length < 2 ^ 32) :
    getBytes (putBytes v ++ rest) = (some v, rest) := by
  have hlen : v.length / 2 ^ 24 % 256 * 2 ^ 24 + v.length / 2 ^ 16 % 256 * 2 ^ 16 +
      v.length / 2 ^ 8 % 256 * 2 ^ 8 + v.length % 256 = v.length := by omega
  simp only [putBytes, putU32, List.cons_append, List.nil_append, getBytes]
  rw [hlen]
  rw [if_neg (by rw [List.length_append]; omega)]
  rw [List.take_left, List.drop_left]

/-! ## Registry lemmas -/

/-- Looking up the rewritten key after an in-place map update. -/
theorem find?_set_same (l : List (List Nat × Queue)) (n : List Nat) (q : Queue) :
    (l.map (fun p => if p.1 = n then (p.1, q) else p)).find? (fun p => p.1 = n) =
      (l.find? (fun p => p.1 = n)).map (fun p => (p.1, q)) := by
  induction l with
  | nil => rfl
  | cons p l ih =>
    by_cases hp : p.1 = n
    · rw [List.map_cons, if_pos hp,
        List.find?_cons_of_pos _ (by simpa using hp),
        List.find?_cons_of_pos _ (by simpa using hp)]
      rfl
    · rw [List.map_cons, if_neg hp,
        List.find?_cons_of_neg _ (by simpa using hp),
        List.find?_cons_of_neg _ (by simpa using hp), ih]

/-- Looking up any other key after an in-place map update. -/
theorem find?_set_other (l : List (List Nat × Queue)) (n m : List Nat) (q : Queue)
    (hmn : m ≠ n) :
    (l.map (fun p => if p.1 = n then (p.1, q) else p)).find? (fun p => p.1 = m) =
      l.find? (fun p => p.1 = m) := by
  induction l with
  | nil => rfl
  | cons p l ih =>
    by_cases hp : p.1 = n
    · have hpm : ¬p.1 = m := by rw [hp]; exact fun hc => hmn hc.symm
      rw [List.map_cons, if_pos hp,
        List.find?_cons_of_neg _ (by simpa using hpm),
        List.find?_cons_of_neg _ (by simpa using hpm), ih]
    · by_cases hm : p.1 = m
      · rw [List.map_cons, if_neg hp,
          List.find?_cons_of_pos _ (by simpa using hm),
          List.find?_cons_of_pos _ (by simpa using hm)]
      · rw [List.map_cons, if_neg hp,
          List.find?_cons_of_neg _ (by simpa using hm),
          List.find?_cons_of_neg _ (by simpa using hm), ih]

/-- `set_queue` updates the entry it targets. -/
theorem get_queue_set_same (r : Registry) (n : List Nat) (q qd : Queue)
    (hg : r.get_queue n = some qd) : (r.set_queue n q).get_queue n = some q := by
  unfold Registry.get_queue Registry.set_queue at *
  rw [find?_set_same]
  cases hf : r.queues.find? (fun p => p.1 = n) with
  | none => rw [hf] at hg; simp at hg
  | some p => simp

/-- `set_queue` leaves every other name's lookup unchanged. -/
theorem get_queue_set_other (r : Registry) (n m : List Nat) (q : Queue) (hmn : m ≠ n) :
    (r.set_queue n q).get_queue m = r.get_queue m := by
  unfold Registry.get_queue Registry.set_queue
  rw [find?_set_other _ _ _ _ hmn]

/-- One fan-out step seen at its own queue: push if room, drop if full,
no-op if the queue is missing. -/
theorem pushSilent_get_same (r : Registry) (qn data : List Nat) :
    (pushSilent r qn data).get_queue qn =
      (r.get_queue qn).map (fun q => q.pushOrDrop data) := by
  unfold pushSilent
  cases hg : r.get_queue qn with
  | none => simp [hg]
  | some q =>
    simp only [Option.map_some']
    unfold Queue.pushOrDrop Queue.push
    by_cases hc : q.items.length < q.capacity
    · simp only [if_pos hc]
      exact get_queue_set_same r qn _ q hg
    · simp only [if_neg hc]
      exact hg

/-- One fan-out step seen at any other queue: untouched. -/
theorem pushSilent_get_other (r : Registry) (qn m data : List Nat) (hm : m ≠ qn) :
    (pushSilent r qn data).get_queue m = r.get_queue m := by
  unfold pushSilent
  cases hg : r.get_queue qn with
  | none => rfl
  | some q =>
    unfold Queue.push
    by_cases hc : q.items.length < q.capacity
    · simp only [if_pos hc]
      exact get_queue_set_other r qn m _ hm
    · simp only [if_neg hc]

/-- The fan-out loop, characterised per queue name: every bound name that
exists locally receives the payload once (or drops it when full); everything
else is untouched. -/
theorem fanout_get (names : List (List Nat)) (r : Registry) (data : List Nat)
    (hnd : names.Nodup) (qn : List Nat) :
    (fanout r names data).get_queue qn =
      if qn ∈ names then (r.get_queue qn).map (fun q => q.pushOrDrop data)
      else r.get_queue qn := by
  revert hnd
  induction names generalizing r with
  | nil => intro _; simp [fanout]
  | cons x xs ih =>
    intro hnd
    obtain ⟨hx, hxs⟩ := List.nodup_cons.1 hnd
    have hstep : fanout r (x :: xs) data = fanout (pushSilent r x data) xs data := rfl
    rw [hstep, ih _ hxs]
    by_cases hq : qn = x
    · subst hq
      rw [if_neg hx, if_pos (List.mem_cons_self _ _)]
      exact pushSilent_get_same r qn data
    · rw [pushSilent_get_other r x qn data hq]
      by_cases hqxs : qn ∈ xs
      · rw [if_pos hqxs, if_pos (List.mem_cons_of_mem _ hqxs)]
      · rw [if_neg hqxs, if_neg (by simp [List.mem_cons, hq, hqxs])]

/-! ## Rendezvous-hashing lemma -/

/-- Invariant of the `leader_of` fold: starting from candidate `n`, the fold
returns either `n` itself (everything scoring no higher) or the first
strictly-greater-scoring later element, with everything before it scoring
strictly less and everything after scoring no higher. -/
theorem foldl_leaderStep_spec (h : List Nat → Nat) (t : List Nat) (l : List Node) (n : Node) :
    ∃ m, l.foldl (leaderStep h t) (some (n, h (rendezvousKey n t))) =
        some (m, h (rendezvousKey m t)) ∧
      ((m = n ∧ ∀ x ∈ l, h (rendezvousKey x t) ≤ h (rendezvousKey n t)) ∨
        (∃ l1 l2, l = l1 ++ m :: l2 ∧
          h (rendezvousKey n t) < h (rendezvousKey m t) ∧
          (∀ x ∈ l1, h (rendezvousKey x t) < h (rendezvousKey m t)) ∧
          (∀ x ∈ l2, h (rendezvousKey x t) ≤ h (rendezvousKey m t)))) := by
  induction l generalizing n with
  | nil => exact ⟨n, rfl, .inl ⟨rfl, by simp⟩⟩
  | cons x xs ih =>
    simp only [List.foldl_cons]
    by_cases hx : h (rendezvousKey n t) < h (rendezvousKey x t)
    · have hstep : leaderStep h t (some (n, h (rendezvousKey n t))) x =
          some (x, h (rendezvousKey x t)) := by
        simp [leaderStep, hx]
      rw [hstep]
      obtain ⟨m, hfold, hcase⟩ := ih x
      refine ⟨m, hfold, .inr ?_⟩
      rcases hcase with ⟨rfl, hall⟩ | ⟨l1, l2, rfl, hlt, h1, h2⟩
      · exact ⟨[], xs, rfl, hx, by simp, hall⟩
      · refine ⟨x :: l1, l2, rfl, lt_trans hx hlt, ?_, h2⟩
        intro y hy
        rcases List.mem_cons.1 hy with rfl | hy
        · exact hlt
        · exact h1 y hy
    · have hstep : leaderStep h t (some (n, h (rendezvousKey n t))) x =
          some (n, h (rendezvousKey n t)) := by
        simp [leaderStep, hx]
      rw [hstep]
      obtain ⟨m, hfold, hcase⟩ := ih n
      refine ⟨m, hfold, ?_⟩
      rcases hcase with ⟨rfl, hall⟩ | ⟨l1, l2, rfl, hlt, h1, h2⟩
      · refine .inl ⟨rfl, ?_⟩
        intro y hy
        rcases List.mem_cons.1 hy with rfl | hy
        · omega
        · exact hall y hy
      · refine .inr ⟨x :: l1, l2, rfl, hlt, ?_, h2⟩
        intro y hy
        rcases List.mem_cons.1 hy with rfl | hy
        · omega
        · exact h1 y hy

end Quique

namespace Quique

/-! ## Claim theorems -/

/-- C1 (counterexample): the claim says opcode byte 0x06 (CreateQueue) is
accepted by header decoding; in the source `Op::try_from` rejects it with
`InvalidOpcode`, and a full 16-byte frame carrying opcode 0x06 fails decode
the same way. -/
theorem c1_extended_opcodes_rejected :
    Op.tryFrom 0x06 = .error (.InvalidOpcode 0x06) ∧
    Header.decode (putU32 MAGIC ++ VERSION :: 0x06 :: 0 :: 0 :: (putU32 0 ++ putU32 0)) =
      .error (.InvalidOpcode 0x06) := ⟨rfl, rfl⟩

/-- C1 (amended): header decoding accepts exactly the opcode bytes
0x01..0x05 (CreateTopic, Produce, Consume, Metadata, Read); every other
opcode byte — 0x06 and 0x07 included — fails decode with `InvalidOpcode`;
and every request decoded with opcode 0x05 (Read) is answered with status
`BadRequest` by `handle_read`. -/
theorem c1_opcode_acceptance (v : Nat) :
    ((Op.tryFrom v).isOk ↔ 1 ≤ v ∧ v ≤ 5) ∧
    (¬(1 ≤ v ∧ v ≤ 5) → Op.tryFrom v = .error (.InvalidOpcode v)) ∧
    (v < 256 → ¬(1 ≤ v ∧ v ≤ 5) →
      Header.decode (putU32 MAGIC ++ VERSION :: v :: 0 :: 0 :: (putU32 0 ++ putU32 0)) =
        .error (.InvalidOpcode v)) ∧
    (∀ body : List Nat, handle_read body = putStatus .BadRequest) := by
  have htry : ¬(1 ≤ v ∧ v ≤ 5) → Op.tryFrom v = .error (.InvalidOpcode v) := by
    intro h
    obtain _ | _ | _ | _ | _ | _ | n := v
    · rfl
    · omega
    · omega
    · omega
    · omega
    · omega
    · rfl
  refine ⟨?_, htry, ?_, fun _ => rfl⟩
  · constructor
    · intro hok
      by_contra h
      rw [htry h] at hok
      simp [Except.isOk, Except.toBool] at hok
    · intro h
      obtain _ | _ | _ | _ | _ | _ | n := v <;> first | rfl | omega
  · intro _ h
    simp only [putU32, MAGIC, VERSION, List.cons_append, List.nil_append, Header.decode]
    norm_num
    rw [htry h]

/-- C1 (witness): the amended theorem applied at the concrete opcode bytes
3 (accepted), 7 and 9 (rejected), and at a concrete body for `handle_read`. -/
theorem c1_opcode_acceptance_witness :
    Op.tryFrom 9 = .error (.InvalidOpcode 9) ∧
    (Op.tryFrom 3).isOk = true ∧
    Header.decode (putU32 MAGIC ++ VERSION :: 7 :: 0 :: 0 :: (putU32 0 ++ putU32 0)) =
      .error (.InvalidOpcode 7) ∧
    handle_read [] = putStatus .BadRequest :=
  ⟨(c1_opcode_acceptance 9).2.1 (by decide),
   ((c1_opcode_acceptance 3).1).2 (by decide),
   (c1_opcode_acceptance 7).2.2.1 (by decide) (by decide),
   (c1_opcode_acceptance 0).2.2.2 []⟩

/-- C2 (counterexample): on a single-node cluster with an empty registry,
`CreateTopic("t")` replies `Ok` yet creates no queue named `t` and binds
nothing — the claimed default queue of capacity 1024 does not exist. -/
theorem c2_no_default_queue_created :
    handle_create_topic hZero clusterA emptyRegistry (putStr [116]) =
      some (putStatus .Ok, { topics := [([116], Topic.new [116])], queues := [] }) ∧
    Registry.get_queue { topics := [([116], Topic.new [116])], queues := [] } [116] = none ∧
    (Topic.new [116]).bound_queues = [] := by
  exact ⟨by decide, by decide, rfl⟩

/-- C2 (amended): for every CreateTopic request naming topic `t`: if
`leader_of(t)` is not the local node the reply is `Redirect` carrying the
leader's address; else if the topic already exists the reply is
`ResourceExists` (wire code 12) and the registry is unchanged; else the
topic is created with an empty bound-queue set — no default queue is created
or bound — and the reply is `Ok`. -/
theorem c2_create_topic_behavior (h : List Nat → Nat) (c : Cluster) (r : Registry)
    (t rest : List Nat) (ht : t.length ≤ 65535) (ldr : Node)
    (hld : c.leader_of h t = some ldr) :
    (ldr.id ≠ c.me.id →
      handle_create_topic h c r (putStr t ++ rest) =
        some (putStatus .Redirect ++ putStr ldr.addr, r)) ∧
    (ldr.id = c.me.id → (r.get_topic t).isSome →
      handle_create_topic h c r (putStr t ++ rest) = some (putStatus .TopicExists, r)) ∧
    (ldr.id = c.me.id → r.get_topic t = none →
      handle_create_topic h c r (putStr t ++ rest) =
        some (putStatus .Ok,
          { topics := r.topics ++ [(t, Topic.new t)], queues := r.queues }) ∧
      (Topic.new t).bound_queues = []) := by
  have hparse := getStr_putStr t rest ht
  refine ⟨?_, ?_, ?_⟩
  · intro hne
    simp only [handle_create_topic, hparse, hld]
    rw [if_pos hne]
  · intro heq hsome
    simp only [handle_create_topic, hparse, hld]
    rw [if_neg (by simp [heq]), if_pos hsome]
  · intro heq hnone
    have hfind : r.topics.find? (fun p => p.1 = t) = none := by
      unfold Registry.get_topic at hnone
      exact Option.map_eq_none'.mp hnone
    refine ⟨?_, rfl⟩
    simp only [handle_create_topic, hparse, hld]
    rw [if_neg (by simp [heq]), if_neg (by simp [hnone])]
    unfold Registry.create_topic
    rw [if_neg (by simp [hfind])]

/-- C2 (witness): the amended theorem applied on the single-node cluster to
a fresh topic `u`. -/
theorem c2_create_topic_behavior_witness :
    handle_create_topic hZero clusterA emptyRegistry (putStr [117] ++ []) =
      some (putStatus .Ok,
        { topics := emptyRegistry.topics ++ [([117], Topic.new [117])],
          queues := emptyRegistry.queues }) ∧
    (Topic.new [117]).bound_queues = [] :=
  (c2_create_topic_behavior hZero clusterA emptyRegistry [117] [] (by decide) nodeA
    (by decide)).2.2 (by decide) (by decide)

/-- C3 (counterexample): consuming from an absent queue replies `NotFound`,
while the claim says the queue is auto-created (so Consume never replies
`NotFound`). -/
theorem c3_consume_replies_not_found :
    handle_consume emptyRegistry (putStr [113] ++ putU32 0) =
      (putStatus .NotFound, emptyRegistry) := by decide

/-- C3 (amended): for every Consume request naming queue `q`: if `q` does
not exist locally the reply is `NotFound` (no auto-creation); otherwise a
single non-blocking pop is performed regardless of the timeout field (which
is parsed and ignored); on an empty queue the reply is `Empty`; on a
successful pop the reply is `Ok` followed by the payload bytes, the popped
element leaves the queue, and every other queue is untouched. -/
theorem c3_consume_behavior (r : Registry) (q rest : List Nat) (hq : q.length ≤ 65535) :
    (r.get_queue q = none →
      handle_consume r (putStr q ++ rest) = (putStatus .NotFound, r)) ∧
    (∀ qd, r.get_queue q = some qd → qd.items = [] →
      handle_consume r (putStr q ++ rest) = (putStatus .Empty, r)) ∧
    (∀ qd v tl, r.get_queue q = some qd → qd.items = v :: tl →
      (handle_consume r (putStr q ++ rest)).1 = putStatus .Ok ++ putBytes v ∧
      ((handle_consume r (putStr q ++ rest)).2).get_queue q = some { qd with items := tl } ∧
      ∀ m, m ≠ q → ((handle_consume r (putStr q ++ rest)).2).get_queue m = r.get_queue m) := by
  have hparse := getStr_putStr q rest hq
  refine ⟨?_, ?_, ?_⟩
  · intro hnone
    simp only [handle_consume, hparse, hnone]
  · intro qd hsome hempty
    simp only [handle_consume, hparse, hsome, Queue.pop, hempty]
  · intro qd v tl hsome hitems
    have hrun : handle_consume r (putStr q ++ rest) =
        (putStatus .Ok ++ putBytes v, r.set_queue q { qd with items := tl }) := by
      simp only [handle_consume, hparse, hsome, Queue.pop, hitems]
    rw [hrun]
    exact ⟨rfl, get_queue_set_same r q _ qd hsome,
      fun m hm => get_queue_set_other r q m _ hm⟩

/-- C3 (witness): the amended theorem applied to a registry holding queue
`q` with one buffered payload, timeout field 0. -/
theorem c3_consume_behavior_witness :
    (handle_consume consumeRegistry (putStr [113] ++ putU32 0)).1 =
      putStatus .Ok ++ putBytes [7] ∧
    ((handle_consume consumeRegistry (putStr [113] ++ putU32 0)).2).get_queue [113] =
      some { name := [113], capacity := 2, items := [] } := by
  have happ := (c3_consume_behavior consumeRegistry [113] (putU32 0) (by decide)).2.2
    { name := [113], capacity := 2, items := [[7]] } [7] [] (by decide) rfl
  exact ⟨happ.1, happ.2.1⟩

/-- C4 (counterexample): producing to an absent topic on a single-node
cluster (the local node is the leader) replies `NotFound` and creates
nothing, while the claim says the topic is created idempotently and Produce
never replies `NotFound`. -/
theorem c4_produce_replies_not_found :
    handle_produce hZero clusterA emptyRegistry (putStr [116] ++ putBytes [104]) =
      some (putStatus .NotFound, emptyRegistry) := by decide

/-- C4 (amended): for every Produce request naming topic `t` with payload
`p`: if `t` does not exist locally the reply is `NotFound` and nothing is
created (the existence check precedes the leadership check); otherwise if
`leader_of(t)` is not the local node the reply is `Redirect`; otherwise `p`
is pushed once to each queue name currently in `t`'s bound set that exists
locally, queues that are full or missing are skipped silently, and the reply
is `Ok`. -/
theorem c4_produce_behavior (h : List Nat → Nat) (c : Cluster) (r : Registry)
    (t data rest : List Nat) (ht : t.length ≤ 65535) (hd : data.length < 2 ^ 32) :
    (r.get_topic t = none →
      handle_produce h c r (putStr t ++ (putBytes data ++ rest)) =
        some (putStatus .NotFound, r)) ∧
    (∀ tp ldr, r.get_topic t = some tp → c.leader_of h t = some ldr →
      ldr.id ≠ c.me.id →
      handle_produce h c r (putStr t ++ (putBytes data ++ rest)) =
        some (putStatus .Redirect ++ putStr ldr.addr, r)) ∧
    (∀ tp ldr, r.get_topic t = some tp → c.leader_of h t = some ldr →
      ldr.id = c.me.id → tp.bound_queues.Nodup →
      handle_produce h c r (putStr t ++ (putBytes data ++ rest)) =
        some (putStatus .Ok, fanout r tp.bound_queues data) ∧
      ∀ qn, (fanout r tp.bound_queues data).get_queue qn =
        if qn ∈ tp.bound_queues then (r.get_queue qn).map (fun qd => qd.pushOrDrop data)
        else r.get_queue qn) := by
  have hparse := getStr_putStr t (putBytes data ++ rest) ht
  have hparse2 := getBytes_putBytes data rest hd
  refine ⟨?_, ?_, ?_⟩
  · intro hnone
    simp only [handle_produce, hparse, hparse2, hnone]
  · intro tp ldr hsome hld hne
    simp only [handle_produce, hparse, hparse2, hsome, hld]
    rw [if_pos hne]
  · intro tp ldr hsome hld heq hnd
    refine ⟨?_, fun qn => fanout_get tp.bound_queues r data hnd qn⟩
    simp only [handle_produce, hparse, hparse2, hsome, hld]
    rw [if_neg (by simp [heq])]

/-- C4 (witness): the amended theorem applied on the single-node cluster to
a topic bound to one queue with room and one full queue. -/
theorem c4_produce_behavior_witness :
    handle_produce hZero clusterA produceRegistry (putStr [116] ++ (putBytes [5] ++ [])) =
      some (putStatus .Ok, fanout produceRegistry [[113], [112]] [5]) := by
  have happ := (c4_produce_behavior hZero clusterA produceRegistry [116] [5] []
      (by decide) (by decide)).2.2
    { name := [116], bound_queues := [[113], [112]] } nodeA
    (by decide) (by decide) (by decide) (by decide)
  exact happ.1

/-- C5: `CreateQueue` with capacity 0 on a fresh name does not reply
`BadRequest` — the handler reaches `ArrayQueue::new(0)`, whose capacity
assertion panics (modelled by `none`), so the connection task dies with no
reply and no queue; with a positive capacity on a fresh name the queue is
created with that capacity and the reply is `Ok`. -/
theorem c5_create_queue_zero_capacity_panics :
    handle_create_queue emptyRegistry (putStr [113] ++ putU32 0) = none ∧
    handle_create_queue emptyRegistry (putStr [113] ++ putU32 5) =
      some (putStatus .Ok,
        { topics := [],
          queues := [([113], { name := [113], capacity := 5, items := [] })] }) := by
  exact ⟨by decide, by decide⟩

/-- C6: for every non-empty member list and every topic, `leader_of` returns
a member node whose rendezvous score `h(id ++ ":" ++ topic)` is maximal,
with every earlier member scoring strictly less (ties break to first
occurrence) and every later member scoring no higher; the result depends
only on the member list and the topic (not on which node is "self"), so
every node with the same member list computes the same leader.  `h` is
universally quantified, so the statement holds in particular for the
seahash used by the source. -/
theorem c6_leader_of_rendezvous_argmax (h : List Nat → Nat) (c : Cluster)
    (t : List Nat) (hne : c.nodes ≠ []) :
    ∃ ldr l1 l2, c.leader_of h t = some ldr ∧
      c.nodes = l1 ++ ldr :: l2 ∧
      (∀ m ∈ l1, h (rendezvousKey m t) < h (rendezvousKey ldr t)) ∧
      (∀ m ∈ l2, h (rendezvousKey m t) ≤ h (rendezvousKey ldr t)) ∧
      (∀ c' : Cluster, c'.nodes = c.nodes → c'.leader_of h t = c.leader_of h t) := by
  have hdet : ∀ c' : Cluster, c'.nodes = c.nodes → c'.leader_of h t = c.leader_of h t := by
    intro c' hc
    simp [Cluster.leader_of, hc]
  obtain ⟨me, nodes⟩ := c
  match nodes, hne with
  | x :: xs, _ =>
    obtain ⟨m, hfold, hcase⟩ := foldl_leaderStep_spec h t xs x
    have hrun : Cluster.leader_of h ⟨me, x :: xs⟩ t = some m := by
      show ((x :: xs).foldl (leaderStep h t) none).map Prod.fst = some m
      rw [List.foldl_cons]
      show (xs.foldl (leaderStep h t) (some (x, h (rendezvousKey x t)))).map Prod.fst = some m
      rw [hfold]
      rfl
    rcases hcase with ⟨rfl, hall⟩ | ⟨l1, l2, rfl, _, h1, h2⟩
    · exact ⟨m, [], xs, hrun, rfl, by simp, hall, hdet⟩
    · refine ⟨m, x :: l1, l2, hrun, rfl, ?_, h2, hdet⟩
      intro y hy
      rcases List.mem_cons.1 hy with rfl | hy
      · assumption
      · exact h1 y hy

/-- C6 (witness): the theorem applied to the concrete two-node cluster with
the byte-sum hash. -/
theorem c6_leader_of_rendezvous_argmax_witness :
    ∃ ldr l1 l2, clusterB.leader_of hSum [50] = some ldr ∧
      clusterB.nodes = l1 ++ ldr :: l2 ∧
      (∀ m ∈ l1, hSum (rendezvousKey m [50]) < hSum (rendezvousKey ldr [50])) ∧
      (∀ m ∈ l2, hSum (rendezvousKey m [50]) ≤ hSum (rendezvousKey ldr [50])) ∧
      (∀ c' : Cluster, c'.nodes = clusterB.nodes →
        c'.leader_of hSum [50] = clusterB.leader_of hSum [50]) :=
  c6_leader_of_rendezvous_argmax hSum clusterB [50] (by decide)

/-- C7: with fewer than 16 buffered bytes `Header::decode` yields the
incomplete result (`ok none`) without consuming anything; on a successful
decode the remaining buffer is exactly the input minus its first 16 bytes. -/
theorem c7_decode_underflow_nondestructive (src : List Nat) :
    (src.length < 16 → Header.decode src = .ok none) ∧
    (∀ hd rest, Header.decode src = .ok (some (hd, rest)) →
      rest = src.drop 16 ∧ src.length = 16 + rest.length) := by
  constructor
  · intro h
    unfold Header.decode
    rw [if_pos h]
  · intro hd rest hdec
    unfold Header.decode at hdec
    repeat' split at hdec
    all_goals simp_all [VERSION, MAGIC]
    all_goals split at hdec <;> simp_all <;> omega

/-- C7 (witness): the theorem applied to a 15-byte buffer and to a concrete
16-byte `Read` frame. -/
theorem c7_decode_underflow_nondestructive_witness :
    Header.decode (List.replicate 15 0) = .ok none ∧
    ([] : List Nat) = ([81, 66, 85, 83, 1, 5, 0, 0, 0, 0, 0, 0, 0, 0, 0, 0] : List Nat).drop 16 ∧
    ([81, 66, 85, 83, 1, 5, 0, 0, 0, 0, 0, 0, 0, 0, 0, 0] : List Nat).length =
      16 + ([] : List Nat).length := by
  have happ := (c7_decode_underflow_nondestructive
      [81, 66, 85, 83, 1, 5, 0, 0, 0, 0, 0, 0, 0, 0, 0, 0]).2
    { magic := MAGIC, version := 1, op := .Read, flags := 0, stream_id := 0, body_len := 0 }
    [] rfl
  exact ⟨(c7_decode_underflow_nondestructive (List.replicate 15 0)).1 (by decide),
    happ.1, happ.2⟩

/-- C8: decoding the 16 bytes produced by `Header::encode` yields the header
back, for every valid header (magic `QBUS`, version 1, any of the five
opcodes, in-range flags and u32 fields). -/
theorem c8_encode_decode_roundtrip (hd : Header) (hm : hd.magic = MAGIC)
    (hv : hd.version = VERSION) (hf : hd.flags < 256)
    (hs : hd.stream_id < 2 ^ 32) (hb : hd.body_len < 2 ^ 32) :
    Header.decode hd.encode = .ok (some (hd, [])) := by
  obtain ⟨m, v, op, fl, sid, bl⟩ := hd
  simp only [MAGIC, VERSION] at hm hv
  subst hm hv
  simp only at hf hs hb
  cases op <;>
    simp_all [Header.encode, Header.decode, putU32, Op.toByte, Op.tryFrom, MAGIC, VERSION] <;>
    omega

/-- C8 (witness): the round trip at a concrete valid header. -/
theorem c8_encode_decode_roundtrip_witness :
    Header.decode (Header.encode
      { magic := MAGIC, version := VERSION, op := .Consume, flags := 7,
        stream_id := 99, body_len := 5 }) =
      .ok (some ({ magic := MAGIC, version := VERSION, op := .Consume, flags := 7,
                   stream_id := 99, body_len := 5 }, [])) :=
  c8_encode_decode_roundtrip _ rfl rfl (by decide) (by decide) (by decide)

/-- C9: a `str` of length up to 65535 (boundary included) round-trips
through `put_str` / `get_str`; but a string of length 65536 is *not*
rejected at encode time — `put_str` silently truncates the length via the
`as u16` cast and emits a frame whose length prefix is 0 followed by all
65536 payload bytes. -/
theorem c9_put_str_truncates_not_rejects :
    (∀ s rest : List Nat, s.length ≤ 65535 → getStr (putStr s ++ rest) = (some s, rest)) ∧
    (∀ s : List Nat, s.length = 65536 → putStr s = 0 :: 0 :: s) := by
  refine ⟨getStr_putStr, ?_⟩
  intro s hs
  simp [putStr, putU16, hs]

/-- C9 (witness): the theorem applied at the 65535-byte boundary and at a
65536-byte string. -/
theorem c9_put_str_truncates_not_rejects_witness :
    getStr (putStr (List.replicate 65535 97) ++ []) =
      (some (List.replicate 65535 97), []) ∧
    putStr (List.replicate 65536 97) = 0 :: 0 :: List.replicate 65536 97 :=
  ⟨c9_put_str_truncates_not_rejects.1 (List.replicate 65535 97) []
     (le_of_eq (List.length_replicate 65535 97)),
   c9_put_str_truncates_not_rejects.2 (List.replicate 65536 97)
     (List.length_replicate 65536 97)⟩

/-- C10: when the input is shorter than the length prefix itself, `get_str`
and `get_bytes` return `none` with the cursor unchanged; when the prefix is
present but the remaining bytes fall short of the announced length, they
return `none` with the prefix already consumed (2 bytes for `get_str`,
4 bytes for `get_bytes`) — unlike `Header::decode`, the cursor is not
restored. -/
theorem c10_field_cursor_on_underflow (b : List Nat) :
    ((b.length < 2 → getStr b = (none, b)) ∧
      (∀ b0 b1 rest, b = b0 :: b1 :: rest → rest.length < b0 * 256 + b1 →
        getStr b = (none, rest))) ∧
    ((b.length < 4 → getBytes b = (none, b)) ∧
      (∀ b0 b1 b2 b3 rest, b = b0 :: b1 :: b2 :: b3 :: rest →
        rest.length < b0 * 2 ^ 24 + b1 * 2 ^ 16 + b2 * 2 ^ 8 + b3 →
        getBytes b = (none, rest))) := by
  refine ⟨⟨?_, ?_⟩, ?_, ?_⟩
  · intro h
    rcases b with _ | ⟨x, _ | ⟨y, t⟩⟩
    · rfl
    · rfl
    · simp at h; omega
  · intro b0 b1 rest hb hshort
    subst hb
    simp only [getStr]
    rw [if_pos hshort]
  · intro h
    rcases b with _ | ⟨x, _ | ⟨y, _ | ⟨z, _ | ⟨w, t⟩⟩⟩⟩ <;> first | rfl | (simp at h; omega)
  · intro b0 b1 b2 b3 rest hb hshort
    subst hb
    simp only [getBytes]
    rw [if_pos hshort]

/-- C10 (witness): the theorem applied at concrete buffers — a bare 1-byte
slice, a short `str` payload, a bare 2-byte slice and a short `bytes`
payload. -/
theorem c10_field_cursor_on_underflow_witness :
    getStr [5] = (none, [5]) ∧ getStr [0, 3, 1] = (none, [1]) ∧
    getBytes [1, 2] = (none, [1, 2]) ∧ getBytes [0, 0, 0, 5, 9] = (none, [9]) :=
  ⟨(c10_field_cursor_on_underflow [5]).1.1 (by decide),
   (c10_field_cursor_on_underflow [0, 3, 1]).1.2 0 3 [1] rfl (by decide),
   (c10_field_cursor_on_underflow [1, 2]).2.1 (by decide),
   (c10_field_cursor_on_underflow [0, 0, 0, 5, 9]).2.2 0 0 0 5 [9] rfl (by decide)⟩

end Quique
